import Mathlib

/-!
Verification of the DPoP proof validator in `parse.go` of streamplace/go-dpop.

The Go source is shallowly embedded as executable Lean definitions:

* JSON values from the JOSE header are modelled by `Jval`; a Go
  `map[string]interface` from decoded JSON is an association list
  `List (String × Jval)` read through `mapGet`.
* Go byte slices are `List Nat` whose elements are intended to be below 256.
* `big.Int` values are `Nat` (they are only ever built with `SetBytes`, so they
  are non-negative); the Go machine `int` is `Int` together with explicit
  reduction modulo `2 ^ 64` where the source converts through `uint64`.
* `time.Time` instants and `time.Duration` values are `Int` nanosecond counts;
  the two `time.Now()` reads inside `Parse` are modelled as one instant `now`.
* fallible Go functions return `Except`; functions that can in addition panic
  (via an unchecked type assertion or `big.Int.FillBytes`) return `GoOutcome`,
  whose `panics` constructor marks a Go runtime panic escaping `Parse`.
* the external JWS layer (`github.com/golang-jwt/jwt/v5`) is out of scope per
  the specification; `Parse` receives the outcome of `jwt.ParseWithClaims` as
  the argument `parseResult` (library-level failures are `GoError.libError`).
-/

set_option autoImplicit false

/-- A decoded JSON value, as stored in the Go `map[string]interface` that the
JOSE header of the proof deserializes to. -/
inductive Jval where
  | str (s : String)
  | num (n : Int)
  | boolean (b : Bool)
  | null
  | obj (fields : List (String × Jval))

/-- The error values of the package (`errors.go` sentinels) together with the
two external error sources that reach the caller: base64 corrupt-input errors
(`base64Decode`) and errors of the jwt library (`libError`).  `joined a b`
models `errors.Join(a, b)`. -/
inductive GoError where
  | invalidProof
  | missingClaims
  | unsupportedJWTType
  | incorrectHTTPTarget
  | incorrectNonce
  | expired
  | future
  | missingJWK
  | incorrectJKT
  | unsupportedCurve
  | unsupportedKeyAlgorithm
  | base64Decode
  | libError (code : Nat)
  | joined (a b : GoError)
deriving DecidableEq, Repr

/-- Outcome of a Go function that returns `(value, error)` but may also panic:
`ok` is a nil-error return, `err` a non-nil error return, and `panics` a Go
runtime panic propagating past the function. -/
inductive GoOutcome (α : Type) where
  | ok (a : α)
  | err (e : GoError)
  | panics

/-- Sequencing of Go statements: an error return or a panic short-circuits. -/
def GoOutcome.bind {α β : Type} (x : GoOutcome α) (f : α → GoOutcome β) : GoOutcome β :=
  match x with
  | .ok a => f a
  | .err e => .err e
  | .panics => .panics

/-- The supported elliptic curves (`elliptic.P256/P384/P521`). -/
inductive Curve where
  | P256
  | P384
  | P521
deriving DecidableEq, Repr

/-- `Curve.Params().BitSize` in Go. -/
def Curve.bitSize : Curve → Nat
  | .P256 => 256
  | .P384 => 384
  | .P521 => 521

/-- `Curve.Params().Name` in Go. -/
def Curve.name : Curve → String
  | .P256 => "P-256"
  | .P384 => "P-384"
  | .P521 => "P-521"

/-- The typed public keys `parseJwk` can produce: `*ecdsa.PublicKey`,
`*rsa.PublicKey` (with its machine-`int` exponent), `ed25519.PublicKey`. -/
inductive GoKey where
  | ecdsa (curve : Curve) (x y : Nat)
  | rsa (n : Nat) (e : Int)
  | ed25519 (bytes : List Nat)
deriving DecidableEq, Repr

/-- Go map lookup `m[k]` on the association list modelling the JSON object
(JSON object keys are unique, so first match is the lookup). -/
def mapGet (m : List (String × Jval)) (k : String) : Option Jval :=
  match m.find? (fun p => p.1 == k) with
  | some p => some p.2
  | none => none

/-! ### Big-endian byte encodings of non-negative integers (`math/big`) -/

/-- `big.Int.Bytes()`: the minimal big-endian byte encoding (empty for 0). -/
def natBytes (n : Nat) : List Nat :=
  if h : n = 0 then [] else
    have : n / 256 < n := Nat.div_lt_self (Nat.pos_of_ne_zero h) (by omega)
    natBytes (n / 256) ++ [n % 256]
termination_by n

/-- `big.Int.SetBytes`: read a big-endian byte string as a non-negative
integer. -/
def bytesToNat (bs : List Nat) : Nat :=
  bs.foldl (fun acc b => acc * 256 + b) 0

/-- The fixed-width big-endian byte string of length `len` written by
`big.Int.FillBytes` when the value fits: byte `i` holds bits
`8*(len-1-i) .. 8*(len-i)-1` of `n`. -/
def natBytesFixed (len : Nat) (n : Nat) : List Nat :=
  (List.range len).map (fun i => n / 256 ^ (len - 1 - i) % 256)

/-- `big.Int.FillBytes(make([]byte, len))`, which panics when the value does
not fit in `len` bytes. -/
def fillBytesO (n len : Nat) : GoOutcome (List Nat) :=
  if n < 256 ^ len then .ok (natBytesFixed len n) else .panics

/-- Reduction of a `uint64` to a Go `int` on a 64-bit platform: two's
complement reinterpretation of the low 64 bits. -/
def toSigned64 (v : Nat) : Int :=
  if v < 2 ^ 63 then (v : Int) else (v : Int) - 2 ^ 64

/-! ### base64url without padding (`base64.RawURLEncoding`) -/

/-- The base64url alphabet (RFC 4648 §5). -/
def b64Char (i : Nat) : Char :=
  if i < 26 then Char.ofNat (65 + i)
  else if i < 52 then Char.ofNat (97 + (i - 26))
  else if i < 62 then Char.ofNat (48 + (i - 52))
  else if i = 62 then '-'
  else '_'

/-- Inverse of the base64url alphabet; `none` on a character outside it. -/
def b64Val (c : Char) : Option Nat :=
  if 'A' ≤ c ∧ c ≤ 'Z' then some (c.toNat - 65)
  else if 'a' ≤ c ∧ c ≤ 'z' then some (c.toNat - 97 + 26)
  else if '0' ≤ c ∧ c ≤ '9' then some (c.toNat - 48 + 52)
  else if c = '-' then some 62
  else if c = '_' then some 63
  else none

/-- `base64.RawURLEncoding.EncodeToString`: 3 input bytes become 4 characters;
a final byte becomes 2 characters and two final bytes become 3. -/
def b64urlEncodeList : List Nat → List Char
  | [] => []
  | [b1] => [b64Char (b1 / 4), b64Char (b1 % 4 * 16)]
  | [b1, b2] => [b64Char (b1 / 4), b64Char (b1 % 4 * 16 + b2 / 16), b64Char (b2 % 16 * 4)]
  | b1 :: b2 :: b3 :: rest =>
      b64Char (b1 / 4) :: b64Char (b1 % 4 * 16 + b2 / 16) ::
      b64Char (b2 % 16 * 4 + b3 / 64) :: b64Char (b3 % 64) :: b64urlEncodeList rest

/-- `base64.RawURLEncoding.DecodeString` on the character list: 4 characters
become 3 bytes; a 2- or 3-character final group becomes 1 or 2 bytes (extra
trailing bits are ignored, as in Go's non-strict decoder); a 1-character
remainder or a character outside the alphabet is a corrupt-input error. -/
def b64urlDecodeList : List Char → Option (List Nat)
  | [] => some []
  | [_] => none
  | [c1, c2] =>
      match b64Val c1, b64Val c2 with
      | some v1, some v2 => some [v1 * 4 + v2 / 16]
      | _, _ => none
  | [c1, c2, c3] =>
      match b64Val c1, b64Val c2, b64Val c3 with
      | some v1, some v2, some v3 => some [v1 * 4 + v2 / 16, v2 % 16 * 16 + v3 / 4]
      | _, _, _ => none
  | c1 :: c2 :: c3 :: c4 :: rest =>
      match b64Val c1, b64Val c2, b64Val c3, b64Val c4 with
      | some v1, some v2, some v3, some v4 =>
          match b64urlDecodeList rest with
          | some bs => some ((v1 * 4 + v2 / 16) :: (v2 % 16 * 16 + v3 / 4) :: (v3 % 4 * 64 + v4) :: bs)
          | none => none
      | _, _, _, _ => none

/-- `base64.RawURLEncoding.EncodeToString` producing a `String`. -/
def b64urlEncodeString (bs : List Nat) : String :=
  String.mk (b64urlEncodeList bs)

/-- `strings.TrimRight(s, "=")` on the character list. -/
def trimTrailingEquals (l : List Char) : List Char :=
  (l.reverse.dropWhile (fun c => c = '=')).reverse

/-- `base64urlTrailingPadding` (parse.go lines 303-306): strip trailing `=`
padding, then decode base64url without padding. -/
def base64urlTrailingPadding (s : String) : Option (List Nat) :=
  b64urlDecodeList (trimTrailingEquals s.data)

/-! ### Key Decoder: `parseJwk` (parse.go lines 194-292) -/

/-- The `case "EC"` branch of `parseJwk`: required string fields `x`, `y`,
`crv`; base64url-decode the coordinates; map `crv` to a supported curve. -/
def parseJwkEC (jwkMap : List (String × Jval)) : Except GoError GoKey :=
  match mapGet jwkMap "x" with
  | some (.str x) =>
    match mapGet jwkMap "y" with
    | some (.str y) =>
      match mapGet jwkMap "crv" with
      | some (.str crv) =>
        match base64urlTrailingPadding x with
        | none => .error .base64Decode
        | some xCoordinate =>
          match base64urlTrailingPadding y with
          | none => .error .base64Decode
          | some yCoordinate =>
            if crv = "P-256" then
              .ok (.ecdsa .P256 (bytesToNat xCoordinate) (bytesToNat yCoordinate))
            else if crv = "P-384" then
              .ok (.ecdsa .P384 (bytesToNat xCoordinate) (bytesToNat yCoordinate))
            else if crv = "P-521" then
              .ok (.ecdsa .P521 (bytesToNat xCoordinate) (bytesToNat yCoordinate))
            else .error .unsupportedCurve
      | _ => .error .invalidProof
    | _ => .error .invalidProof
  | _ => .error .invalidProof

/-- The `case "RSA"` branch of `parseJwk`: required string fields `e`, `n`;
`E` is `int(big.NewInt(0).SetBytes(exponent).Uint64())`, where `Uint64` of a
too-large value is its low 64 bits (the gc `math/big` implementation) and the
conversion to `int` reinterprets them as a signed 64-bit value. -/
def parseJwkRSA (jwkMap : List (String × Jval)) : Except GoError GoKey :=
  match mapGet jwkMap "e" with
  | some (.str e) =>
    match mapGet jwkMap "n" with
    | some (.str n) =>
      match base64urlTrailingPadding e with
      | none => .error .base64Decode
      | some exponent =>
        match base64urlTrailingPadding n with
        | none => .error .base64Decode
        | some modulus =>
          .ok (.rsa (bytesToNat modulus) (toSigned64 (bytesToNat exponent % 2 ^ 64)))
    | _ => .error .invalidProof
  | _ => .error .invalidProof

/-- The `case "OKP"` branch of `parseJwk`: required string field `x`; the
decoded bytes become the raw `ed25519.PublicKey`.  The `crv` member is never
inspected. -/
def parseJwkOKP (jwkMap : List (String × Jval)) : Except GoError GoKey :=
  match mapGet jwkMap "x" with
  | some (.str x) =>
    match base64urlTrailingPadding x with
    | none => .error .base64Decode
    | some publicKey => .ok (.ed25519 publicKey)
  | _ => .error .invalidProof

/-- `parseJwk` (parse.go lines 194-292): dispatch on the string `kty` member;
a missing or non-string `kty` is `ErrInvalidProof`; `OCT` and every other
unknown type is `ErrUnsupportedKeyAlgorithm`. -/
def parseJwk (jwkMap : List (String × Jval)) : Except GoError GoKey :=
  match mapGet jwkMap "kty" with
  | some (.str kty) =>
    if kty = "EC" then parseJwkEC jwkMap
    else if kty = "RSA" then parseJwkRSA jwkMap
    else if kty = "OKP" then parseJwkOKP jwkMap
    else .error .unsupportedKeyAlgorithm
  | _ => .error .invalidProof

/-! ### Thumbprint Calculator (parse.go lines 308-355) -/

/-- `keyCurveBytesSize := bits/8 + bits%8` (parse.go line 330), the byte width
used for the fixed-size EC coordinate encoding. -/
def keyCurveBytesSize (c : Curve) : Nat :=
  c.bitSize / 8 + c.bitSize % 8

/-- The `keyParts` map built by `getKeyStringRepresentation` (parse.go lines
324-352), before JSON marshalling.  All member values  are strings.  EC
coordinates go through `FillBytes` (which panics when the coordinate does not
fit the curve byte size); RSA members use the minimal `big.Int.Bytes`
encoding. -/
def keyStringParts (key : GoKey) : GoOutcome (List (String × String)) :=
  match key with
  | .ecdsa c x y =>
    (fillBytesO x (keyCurveBytesSize c)).bind fun xb =>
    (fillBytesO y (keyCurveBytesSize c)).bind fun yb =>
    .ok [("kty", "EC"), ("crv", c.name),
         ("x", b64urlEncodeString xb), ("y", b64urlEncodeString yb)]
  | .rsa n e =>
    .ok [("kty", "RSA"), ("e", b64urlEncodeString (natBytes e.natAbs)),
         ("n", b64urlEncodeString (natBytes n))]
  | .ed25519 bytes =>
    .ok [("kty", "OKP"), ("crv", "Ed25519"), ("x", b64urlEncodeString bytes)]

/-- One character of Go `encoding/json` string escaping (the default encoder:
quote, backslash, newline, carriage return and tab escapes, `\u00XX` for other
control characters, and HTML-safe escaping of angle brackets and ampersand). -/
def jsonEscapeChar (c : Char) : String :=
  if c = '"' then "\\\""
  else if c = '\\' then "\\\\"
  else if c = '\n' then "\\n"
  else if c = '\r' then "\\r"
  else if c = '\t' then "\\t"
  else if c.toNat < 32 then
    "\\u00" ++ String.mk [b64Char (52 + c.toNat / 16), b64Char (52 + c.toNat % 16)]
  else if c = '<' then "\\u003c"
  else if c = '>' then "\\u003e"
  else if c = '&' then "\\u0026"
  else String.mk [c]

/-- A JSON string literal as Go `encoding/json` renders it. -/
def jsonQuote (s : String) : String :=
  "\"" ++ String.join (s.data.map jsonEscapeChar) ++ "\""

/-- Lexicographic byte order on (ASCII) strings, the order `encoding/json`
sorts map keys in. -/
def strLtB (a b : String) : Bool :=
  let rec go : List Char → List Char → Bool
    | [], [] => false
    | [], _ :: _ => true
    | _ :: _, [] => false
    | x :: xs, y :: ys =>
      if x.toNat < y.toNat then true
      else if y.toNat < x.toNat then false
      else go xs ys
  go a.data b.data

/-- Insertion into a key-sorted field list. -/
def insertField (p : String × String) : List (String × String) → List (String × String)
  | [] => [p]
  | q :: qs => if strLtB p.1 q.1 then p :: q :: qs else q :: insertField p qs

/-- Sort fields by key, as `encoding/json` does for Go maps. -/
def sortFields : List (String × String) → List (String × String)
  | [] => []
  | p :: ps => insertField p (sortFields ps)

/-- `json.Marshal` of a `map[string]string`: keys sorted in byte order, no
insignificant whitespace. -/
def marshalStrMap (fields : List (String × String)) : String :=
  "\x7b" ++
    String.intercalate ","
      ((sortFields fields).map (fun kv => jsonQuote kv.1 ++ ":" ++ jsonQuote kv.2)) ++
  "\x7d"

/-- `getKeyStringRepresentation` (parse.go lines 323-355): the JSON text of
the minimal-member map for the key.  (The Go `default` case is unreachable
here because `GoKey` is exactly the closed set of keys `parseJwk` builds.) -/
def getKeyStringRepresentation (key : GoKey) : GoOutcome String :=
  match keyStringParts key with
  | .ok parts => .ok (marshalStrMap parts)
  | .err e => .err e
  | .panics => .panics

/-- `getThumbprintableJwkJSONbytes` (parse.go lines 310-320): strip the JWK of
optional members by decoding it and re-encoding only the required members. -/
def getThumbprintableJwkJSONbytes (jwk : List (String × Jval)) : GoOutcome String :=
  match parseJwk jwk with
  | .error e => .err e
  | .ok minimalJwk => getKeyStringRepresentation minimalJwk

/-! ### SHA-256 (`crypto/sha256`), over byte lists -/

/-- Truncation to a 32-bit word. -/
def w32 (n : Nat) : Nat := n % 4294967296

/-- Right rotation of a 32-bit word. -/
def rotr32 (r x : Nat) : Nat := w32 (x / 2 ^ r + x % 2 ^ r * 2 ^ (32 - r))

/-- The SHA-256 `Ch` function. -/
def chF (x y z : Nat) : Nat := Nat.xor (Nat.land x y) (Nat.land (Nat.xor x 4294967295) z)

/-- The SHA-256 `Maj` function. -/
def majF (x y z : Nat) : Nat := Nat.xor (Nat.xor (Nat.land x y) (Nat.land x z)) (Nat.land y z)

/-- The SHA-256 big sigma-0 function. -/
def bsig0 (x : Nat) : Nat := Nat.xor (Nat.xor (rotr32 2 x) (rotr32 13 x)) (rotr32 22 x)

/-- The SHA-256 big sigma-1 function. -/
def bsig1 (x : Nat) : Nat := Nat.xor (Nat.xor (rotr32 6 x) (rotr32 11 x)) (rotr32 25 x)

/-- The SHA-256 small sigma-0 function. -/
def ssig0 (x : Nat) : Nat := Nat.xor (Nat.xor (rotr32 7 x) (rotr32 18 x)) (x / 8)

/-- The SHA-256 small sigma-1 function. -/
def ssig1 (x : Nat) : Nat := Nat.xor (Nat.xor (rotr32 17 x) (rotr32 19 x)) (x / 1024)

/-- The 64 SHA-256 round constants. -/
def sha256K : List Nat :=
  [1116352408, 1899447441, 3049323471, 3921009573, 961987163,
   1508970993, 2453635748, 2870763221, 3624381080, 310598401,
   607225278, 1426881987, 1925078388, 2162078206, 2614888103,
   3248222580, 3835390401, 4022224774, 264347078, 604807628,
   770255983, 1249150122, 1555081692, 1996064986, 2554220882,
   2821834349, 2952996808, 3210313671, 3336571891, 3584528711,
   113926993, 338241895, 666307205, 773529912, 1294757372,
   1396182291, 1695183700, 1986661051, 2177026350, 2456956037,
   2730485921, 2820302411, 3259730800, 3345764771, 3516065817,
   3600352804, 4094571909, 275423344, 430227734, 506948616,
   659060556, 883997877, 958139571, 1322822218, 1537002063,
   1747873779, 1955562222, 2024104815, 2227730452, 2361852424,
   2428436474, 2756734187, 3204031479, 3329325298]

/-- The SHA-256 initial hash state. -/
def sha256H0 : List Nat :=
  [1779033703, 3144134277, 1013904242,
   2773480762, 1359893119, 2600822924,
   528734635, 1541459225]

/-- Merkle-Damgard padding: a `0x80` byte, zeros to 56 mod 64, and the 8-byte
big-endian bit length. -/
def sha256Pad (msg : List Nat) : List Nat :=
  msg ++ [128] ++ List.replicate ((120 - (msg.length + 1) % 64) % 64) 0 ++
    natBytesFixed 8 (msg.length * 8)

/-- Split a byte list into 64-byte blocks. -/
def chunksOf64 : List Nat → List (List Nat)
  | [] => []
  | b :: bs => ((b :: bs).take 64) :: chunksOf64 ((b :: bs).drop 64)
termination_by l => l.length
decreasing_by simp [List.length_drop]; omega

/-- Group 4 bytes into one big-endian 32-bit word. -/
def bytesToWords : List Nat → List Nat
  | b1 :: b2 :: b3 :: b4 :: rest =>
      (b1 * 16777216 + b2 * 65536 + b3 * 256 + b4) :: bytesToWords rest
  | _ => []

/-- The next message-schedule word from the last 16 already computed. -/
def scheduleNext (w : List Nat) : Nat :=
  let n := w.length
  w32 (ssig1 (w.getD (n - 2) 0) + w.getD (n - 7) 0 + ssig0 (w.getD (n - 15) 0) + w.getD (n - 16) 0)

/-- Extend the 16 block words by `k` schedule words. -/
def extendW : List Nat → Nat → List Nat
  | w, 0 => w
  | w, k + 1 => extendW (w ++ [scheduleNext w]) k

/-- One SHA-256 compression round on the 8-word working state. -/
def sha256Round (st : List Nat) (k w : Nat) : List Nat :=
  match st with
  | [a, b, c, d, e, f, g, h] =>
    let t1 := w32 (h + bsig1 e + chF e f g + k + w)
    let t2 := w32 (bsig0 a + majF a b c)
    [w32 (t1 + t2), a, b, c, w32 (d + t1), e, f, g]
  | other => other

/-- Compress one 64-byte block into the hash state. -/
def sha256Compress (st : List Nat) (block : List Nat) : List Nat :=
  let ws := extendW (bytesToWords block) 48
  let final := (List.zip sha256K ws).foldl (fun s kw => sha256Round s kw.1 kw.2) st
  (List.zip st final).map (fun p => w32 (p.1 + p.2))

/-- `sha256.Sum` of a byte list: the 32 digest bytes. -/
def sha256 (msg : List Nat) : List Nat :=
  let final := (chunksOf64 (sha256Pad msg)).foldl sha256Compress sha256H0
  final.foldr (fun wv acc => natBytesFixed 4 wv ++ acc) []

/-- The UTF-8 bytes of the (ASCII) JSON text handed to the hash. -/
def strBytes (s : String) : List Nat :=
  s.data.map Char.toNat

/-! ### `net/url` model -/

/-- The fields of Go `url.URL` that this package reads or writes.  `toString`
below mirrors `URL.String()` for URLs built from these fields. -/
structure GoURL where
  scheme : String
  host : String
  path : String
  rawQuery : String
  fragment : String
deriving DecidableEq, Inhabited, Repr

/-- `url.URL.String()` restricted to the modelled fields: `scheme://host path`
with `?rawQuery` and `#fragment` appended when non-empty. -/
def GoURL.toString (u : GoURL) : String :=
  (if u.scheme ≠ "" then u.scheme ++ "://" else "") ++ u.host ++ u.path ++
  (if u.rawQuery ≠ "" then "?" ++ u.rawQuery else "") ++
  (if u.fragment ≠ "" then "#" ++ u.fragment else "")

/-- Split at the first occurrence of `c`, dropping it; the second component is
empty when `c` does not occur. -/
def splitFirst : List Char → Char → List Char × List Char
  | [], _ => ([], [])
  | x :: xs, c =>
    if x = c then ([], xs)
    else
      let p := splitFirst xs c
      (x :: p.1, p.2)

/-- Split off a leading `scheme://`; `none` when the separator is absent. -/
def schemeSplit : List Char → Option (List Char × List Char)
  | [] => none
  | ':' :: '/' :: '/' :: rest => some ([], rest)
  | x :: xs =>
    match schemeSplit xs with
    | some p => some (x :: p.1, p.2)
    | none => none

/-- Split `host/path`; the path keeps its leading slash. -/
def hostPathSplit : List Char → List Char × List Char
  | [] => ([], [])
  | x :: xs =>
    if x = '/' then ([], x :: xs)
    else
      let p := hostPathSplit xs
      (x :: p.1, p.2)

/-- Model of `url.Parse` for the URLs this package compares: split off the
fragment, then the query, then `scheme://`, then host and path.  ASCII control
characters are rejected, as in `net/url`. -/
def urlParse (s : String) : Except Unit GoURL :=
  if s.data.any (fun c => c.toNat < 32 ∨ c.toNat = 127) then .error ()
  else
    let f := splitFirst s.data '#'
    let q := splitFirst f.1 '?'
    match schemeSplit q.1 with
    | some sp =>
      let hp := hostPathSplit sp.2
      .ok { scheme := String.mk sp.1, host := String.mk hp.1, path := String.mk hp.2,
            rawQuery := String.mk q.2, fragment := String.mk f.2 }
    | none =>
      let hp := hostPathSplit q.1
      .ok { scheme := "", host := String.mk hp.1, path := String.mk hp.2,
            rawQuery := String.mk q.2, fragment := String.mk f.2 }

/-! ### The Proof Validator: `Parse` (parse.go lines 40-191) -/

/-- `ParseOptions` (parse.go lines 41-58); durations in nanoseconds, the `nil`
pointers of the optional durations modelled by `none`. -/
structure ParseOptions where
  nonce : String
  nonceHasTimestamp : Bool
  timeWindow : Option Int
  allowedProofAge : Option Int
  jkt : String

/-- `DEFAULT_ALLOWED_PROOF_AGE = time.Minute * 5`, in nanoseconds. -/
def DEFAULT_ALLOWED_PROOF_AGE : Int := 300000000000

/-- `DEFAULT_ALLOWED_TIME_WINDOW = time.Second * 0`. -/
def DEFAULT_ALLOWED_TIME_WINDOW : Int := 0

/-- `ProofTokenClaims` (claims.go): the DPoP claims `htm`, `htu`, `jti`,
`iat` (a nilable pointer, hence `Option`) and `nonce`. -/
structure ProofTokenClaims where
  method : String
  url : String
  id : String
  issuedAt : Option Int
  nonce : String

/-- The parsed `jwt.Token`: its JOSE header map and its claims. -/
structure Token where
  header : List (String × Jval)
  claims : ProofTokenClaims

/-- The validated `Proof` returned by `Parse`: the token and the base64url
SHA-256 thumbprint of its embedded public key. -/
structure Proof where
  token : Token
  hashedPublicKey : String

/-- `keyFunc` (parse.go lines 177-191): resolve the verification key from the
proof's own `jwk` header. -/
def keyFunc (t : Token) : Except GoError GoKey :=
  match mapGet t.header "jwk" with
  | some (.obj jwkMap) => parseJwk jwkMap
  | some _ => .error .missingJWK
  | none => .error .missingJWK

/-- The `iat` time-window checks (parse.go lines 121-141): skipped entirely
when `NonceHasTimestamp` is set; otherwise `iat` strictly before
`now - past` is `ErrExpired` and `iat` strictly after `now + future` is
`ErrFuture`, with the caller-supplied durations defaulting as in the source. -/
def iatWindowCheck (opts : ParseOptions) (now iat : Int) : Except GoError Unit :=
  if !opts.nonceHasTimestamp then
    let past := opts.allowedProofAge.getD DEFAULT_ALLOWED_PROOF_AGE
    if iat < now - past then .error (.joined .invalidProof .expired)
    else
      let future := opts.timeWindow.getD DEFAULT_ALLOWED_TIME_WINDOW
      if now + future < iat then .error (.joined .invalidProof .future)
      else .ok ()
  else .ok ()

/-- The public-key hashing (parse.go lines 151-161): the canonical JSON of the
JWK, hashed with SHA-256 and base64url-encoded without padding. -/
def thumbprint (jwk : List (String × Jval)) : GoOutcome String :=
  match getThumbprintableJwkJSONbytes jwk with
  | .ok jwkJSONbytes => .ok (b64urlEncodeString (sha256 (strBytes jwkJSONbytes)))
  | .err e => .err e
  | .panics => .panics

/-- The tail of `Parse` from the `jwk` header extraction on (parse.go lines
143-175): re-extract the JWK, hash it, compare against `dpop_jkt` when
supplied, and construct the `Proof`.  (The in-memory `sha256` writer of the
source never returns a write error.) -/
def jwkStage (dpopToken : Token) (opts : ParseOptions) : GoOutcome Proof :=
  match mapGet dpopToken.header "jwk" with
  | some (.obj jwk) =>
    match thumbprint jwk with
    | .err e => .err (.joined .invalidProof e)
    | .panics => .panics
    | .ok b64URLjwkHash =>
      if opts.jkt ≠ "" ∧ b64URLjwkHash ≠ opts.jkt then
        .err (.joined .invalidProof .incorrectJKT)
      else
        .ok { token := dpopToken, hashedPublicKey := b64URLjwkHash }
  | _ => .err .missingJWK

/-- `Parse` (parse.go lines 65-175).  The external
`jwt.ParseWithClaims(tokenString, claims, keyFunc)` call is out of scope (a
JOSE-layer collaborator); its outcome arrives as `parseResult`, whose error
case carries the library's error.  After it, in source order: required-claims
presence; the `typ` JOSE header (where a present non-string header hits the
unchecked type assertion `typeHeader.(string)` and panics); query/fragment
stripping of a copy of the request URL and of the re-parsed `htu`; the
method/URL comparison; the nonce comparison; the `iat` window; and the
thumbprint stage. -/
def Parse (parseResult : Except Nat Token) (httpMethod : String) (httpURL : GoURL)
    (opts : ParseOptions) (now : Int) : GoOutcome Proof :=
  match parseResult with
  | .error errCode => .err (.joined .invalidProof (.libError errCode))
  | .ok dpopToken =>
    if dpopToken.claims.method = "" ∨ dpopToken.claims.url = "" ∨
        dpopToken.claims.id = "" then
      .err (.joined .invalidProof .missingClaims)
    else
      match dpopToken.claims.issuedAt with
      | none => .err (.joined .invalidProof .missingClaims)
      | some iat =>
        match mapGet dpopToken.header "typ" with
        | none => .err (.joined .invalidProof .unsupportedJWTType)
        | some (.str typeHeader) =>
          if typeHeader ≠ "dpop+jwt" then .err (.joined .invalidProof .unsupportedJWTType)
          else
            let httpURL2 : GoURL := { httpURL with rawQuery := "", fragment := "" }
            match urlParse dpopToken.claims.url with
            | .error _ => .err (.joined .invalidProof .incorrectHTTPTarget)
            | .ok claimURL0 =>
              let claimURL : GoURL := { claimURL0 with rawQuery := "", fragment := "" }
              if httpMethod ≠ dpopToken.claims.method ∨
                  GoURL.toString httpURL2 ≠ GoURL.toString claimURL then
                .err (.joined .invalidProof .incorrectHTTPTarget)
              else if opts.nonce ≠ "" ∧ opts.nonce ≠ dpopToken.claims.nonce then
                .err .incorrectNonce
              else
                match iatWindowCheck opts now iat with
                | .error e => .err e
                | .ok _ => jwkStage dpopToken opts
        | some _ => .panics

/-- The pointer discipline of parse.go lines 94-98, with the heap made
explicit: cell 0 is the caller's `url.URL` and the parameter `httpURL` points
at it.  In Go, `*p` denotes the variable `p` points to and `&` of that
variable is `p` again, so line 95 (`httpURL = &(*httpURL)`) reassigns the
local pointer to the pointer it already holds — it allocates no copy — and
the two field assignments on lines 97-98 then write through that pointer
into the caller's cell. -/
def stripHeap (u : GoURL) : List GoURL × Nat :=
  let heap : List GoURL := [u]
  let httpURL : Nat := 0
  let httpURL := httpURL
  let heap := heap.set httpURL { heap.getD httpURL default with rawQuery := "" }
  let heap := heap.set httpURL { heap.getD httpURL default with fragment := "" }
  (heap, httpURL)

/-! ### Lemmas about the byte encodings -/

theorem bytesToNat_append (l1 l2 : List Nat) :
    bytesToNat (l1 ++ l2) = l2.foldl (fun acc b => acc * 256 + b) (bytesToNat l1) := by
  simp [bytesToNat, List.foldl_append]

theorem bytesToNat_concat (l : List Nat) (b : Nat) :
    bytesToNat (l ++ [b]) = bytesToNat l * 256 + b := by
  simp [bytesToNat_append, List.foldl]

theorem bytesToNat_natBytes (n : Nat) : bytesToNat (natBytes n) = n := by
  induction n using Nat.strong_induction_on with
  | _ n ih =>
    rw [natBytes]
    by_cases h : n = 0
    · simp [h, bytesToNat]
    · simp only [h, dite_false]
      rw [bytesToNat_concat, ih (n / 256) (Nat.div_lt_self (Nat.pos_of_ne_zero h) (by omega))]
      omega

theorem natBytes_lt (n : Nat) : ∀ b ∈ natBytes n, b < 256 := by
  induction n using Nat.strong_induction_on with
  | _ n ih =>
    rw [natBytes]
    by_cases h : n = 0
    · simp [h]
    · simp only [h, dite_false]
      intro b hb
      rcases List.mem_append.mp hb with h1 | h2
      · exact ih (n / 256) (Nat.div_lt_self (Nat.pos_of_ne_zero h) (by omega)) b h1
      · simp at h2
        omega

theorem natBytes_zero : natBytes 0 = [] := by rw [natBytes]; simp

theorem natBytesFixed_succ (len n : Nat) :
    natBytesFixed (len + 1) n = natBytesFixed len (n / 256) ++ [n % 256] := by
  unfold natBytesFixed
  rw [List.range_succ, List.map_append]
  congr 1
  · apply List.map_congr_left
    intro i hi
    rw [List.mem_range] at hi
    have h1 : len + 1 - 1 - i = (len - 1 - i) + 1 := by omega
    rw [h1, pow_succ, Nat.div_div_eq_div_mul, Nat.mul_comm (256 ^ (len - 1 - i)) 256,
      ← Nat.div_div_eq_div_mul]
  · simp

theorem natBytesFixed_length (len n : Nat) : (natBytesFixed len n).length = len := by
  simp [natBytesFixed]

theorem natBytesFixed_lt (len n : Nat) : ∀ b ∈ natBytesFixed len n, b < 256 := by
  intro b hb
  simp only [natBytesFixed, List.mem_map] at hb
  obtain ⟨i, _, hi⟩ := hb
  omega

/-- `FillBytes` zero-pads the minimal big-endian encoding on the left. -/
theorem natBytesFixed_eq_pad (len n : Nat) (h : n < 256 ^ len) :
    natBytesFixed len n = List.replicate (len - (natBytes n).length) 0 ++ natBytes n := by
  induction len generalizing n with
  | zero =>
    have hn : n = 0 := by simpa using h
    simp [hn, natBytesFixed, natBytes_zero]
  | succ len ih =>
    rw [natBytesFixed_succ]
    by_cases hz : n = 0
    · subst hz
      rw [natBytes_zero, Nat.zero_div, Nat.zero_mod, ih 0 (Nat.pos_pow_of_pos len (by omega))]
      rw [natBytes_zero]
      simp only [List.length_nil, Nat.sub_zero, List.append_nil]
      rw [List.replicate_succ' len (0 : ℕ)]
    · have hdiv : n / 256 < 256 ^ len := by
        rw [Nat.div_lt_iff_lt_mul (by omega)]
        calc n < 256 ^ (len + 1) := h
        _ = 256 ^ len * 256 := by rw [pow_succ]
      rw [ih (n / 256) hdiv]
      conv_rhs => rw [natBytes, dif_neg hz]
      rw [List.append_assoc]
      have hL : (natBytes (n / 256) ++ [n % 256]).length = (natBytes (n / 256)).length + 1 := by
        simp
      rw [hL]
      congr 2
      omega

/-! ### Lemmas about base64url -/

theorem b64Val_b64Char : ∀ v : Nat, v < 64 → b64Val (b64Char v) = some v := by decide

theorem b64Char_ne_eq : ∀ v : Nat, v < 64 → b64Char v ≠ '=' := by decide

theorem b64url_roundtrip :
    ∀ bs : List Nat, (∀ b ∈ bs, b < 256) → b64urlDecodeList (b64urlEncodeList bs) = some bs := by
  have key : ∀ n : Nat, ∀ bs : List Nat, bs.length = n → (∀ b ∈ bs, b < 256) →
      b64urlDecodeList (b64urlEncodeList bs) = some bs := by
    intro n
    induction n using Nat.strong_induction_on with
    | _ n ih =>
      intro bs hn hv
      rcases bs with _ | ⟨b1, _ | ⟨b2, _ | ⟨b3, rest⟩⟩⟩
      · rfl
      · have h1 : b1 < 256 := hv b1 (by simp)
        simp only [b64urlEncodeList, b64urlDecodeList]
        rw [b64Val_b64Char (b1 / 4) (by omega), b64Val_b64Char (b1 % 4 * 16) (by omega)]
        simp only [Option.some.injEq, List.cons.injEq, and_true]
        omega
      · have h1 : b1 < 256 := hv b1 (by simp)
        have h2 : b2 < 256 := hv b2 (by simp)
        simp only [b64urlEncodeList, b64urlDecodeList]
        rw [b64Val_b64Char (b1 / 4) (by omega), b64Val_b64Char (b1 % 4 * 16 + b2 / 16) (by omega),
          b64Val_b64Char (b2 % 16 * 4) (by omega)]
        simp only [Option.some.injEq, List.cons.injEq, and_true]
        constructor <;> omega
      · have h1 : b1 < 256 := hv b1 (by simp)
        have h2 : b2 < 256 := hv b2 (by simp)
        have h3 : b3 < 256 := hv b3 (by simp)
        have hrest : ∀ b ∈ rest, b < 256 := fun b hb => hv b (by simp [hb])
        have hlt : rest.length < n := by simp at hn; omega
        simp only [b64urlEncodeList, b64urlDecodeList]
        rw [b64Val_b64Char (b1 / 4) (by omega), b64Val_b64Char (b1 % 4 * 16 + b2 / 16) (by omega),
          b64Val_b64Char (b2 % 16 * 4 + b3 / 64) (by omega), b64Val_b64Char (b3 % 64) (by omega)]
        rw [ih rest.length hlt rest rfl hrest]
        simp only [Option.some.injEq, List.cons.injEq, and_true]
        refine ⟨by omega, by omega, by omega⟩
  intro bs
  exact key bs.length bs rfl

theorem b64urlEncodeList_ne_eq :
    ∀ bs : List Nat, (∀ b ∈ bs, b < 256) → ∀ c ∈ b64urlEncodeList bs, c ≠ '=' := by
  have key : ∀ n : Nat, ∀ bs : List Nat, bs.length = n → (∀ b ∈ bs, b < 256) →
      ∀ c ∈ b64urlEncodeList bs, c ≠ '=' := by
    intro n
    induction n using Nat.strong_induction_on with
    | _ n ih =>
      intro bs hn hv c hc
      rcases bs with _ | ⟨b1, _ | ⟨b2, _ | ⟨b3, rest⟩⟩⟩
      · simp [b64urlEncodeList] at hc
      · have h1 : b1 < 256 := hv b1 (by simp)
        simp only [b64urlEncodeList, List.mem_cons, List.not_mem_nil, or_false] at hc
        rcases hc with h | h <;> subst h <;> exact b64Char_ne_eq _ (by omega)
      · have h1 : b1 < 256 := hv b1 (by simp)
        have h2 : b2 < 256 := hv b2 (by simp)
        simp only [b64urlEncodeList, List.mem_cons, List.not_mem_nil, or_false] at hc
        rcases hc with h | h | h <;> subst h <;> exact b64Char_ne_eq _ (by omega)
      · have h1 : b1 < 256 := hv b1 (by simp)
        have h2 : b2 < 256 := hv b2 (by simp)
        have h3 : b3 < 256 := hv b3 (by simp)
        have hlt : rest.length < n := by simp at hn; omega
        simp only [b64urlEncodeList, List.mem_cons] at hc
        rcases hc with h | h | h | h | h
        · subst h; exact b64Char_ne_eq _ (by omega)
        · subst h; exact b64Char_ne_eq _ (by omega)
        · subst h; exact b64Char_ne_eq _ (by omega)
        · subst h; exact b64Char_ne_eq _ (by omega)
        · exact ih rest.length hlt rest rfl (fun b hb => hv b (by simp [hb])) c h
  intro bs
  exact key bs.length bs rfl

theorem dropWhile_of_forall_not {α : Type} (p : α → Bool) :
    ∀ l : List α, (∀ x ∈ l, ¬p x) → l.dropWhile p = l := by
  intro l h
  cases l with
  | nil => rfl
  | cons x xs =>
    rw [List.dropWhile_cons_of_neg]
    simpa using h x (by simp)

theorem trimTrailingEquals_of_no_eq (l : List Char) (h : ∀ c ∈ l, c ≠ '=') :
    trimTrailingEquals l = l := by
  unfold trimTrailingEquals
  rw [dropWhile_of_forall_not]
  · exact l.reverse_reverse
  · intro c hc
    simp only [decide_eq_true_eq]
    exact h c (List.mem_reverse.mp hc)

/-- Decoding the package's own base64url encoding round-trips: the trailing
`=` strip finds nothing to strip and the decoder inverts the encoder. -/
theorem base64urlTrailingPadding_encode (bs : List Nat) (h : ∀ b ∈ bs, b < 256) :
    base64urlTrailingPadding (b64urlEncodeString bs) = some bs := by
  unfold base64urlTrailingPadding b64urlEncodeString
  rw [show (String.mk (b64urlEncodeList bs)).data = b64urlEncodeList bs from rfl]
  rw [trimTrailingEquals_of_no_eq _ (b64urlEncodeList_ne_eq bs h)]
  exact b64url_roundtrip bs h

/-! ### Shape lemmas: which errors each stage can produce -/

theorem parseJwkEC_shape (m : List (String × Jval)) :
    (∃ k, parseJwkEC m = .ok k) ∨ parseJwkEC m = .error .invalidProof ∨
    parseJwkEC m = .error .base64Decode ∨ parseJwkEC m = .error .unsupportedCurve := by
  unfold parseJwkEC
  repeat' split
  all_goals simp

theorem parseJwkRSA_shape (m : List (String × Jval)) :
    (∃ k, parseJwkRSA m = .ok k) ∨ parseJwkRSA m = .error .invalidProof ∨
    parseJwkRSA m = .error .base64Decode := by
  unfold parseJwkRSA
  repeat' split
  all_goals simp

theorem parseJwkOKP_shape (m : List (String × Jval)) :
    (∃ k, parseJwkOKP m = .ok k) ∨ parseJwkOKP m = .error .invalidProof ∨
    parseJwkOKP m = .error .base64Decode := by
  unfold parseJwkOKP
  repeat' split
  all_goals simp


/-- `parseJwk` only ever fails with one of its four atomic errors. -/
theorem parseJwk_shape (m : List (String × Jval)) :
    (∃ k, parseJwk m = .ok k) ∨ parseJwk m = .error .invalidProof ∨
    parseJwk m = .error .base64Decode ∨ parseJwk m = .error .unsupportedCurve ∨
    parseJwk m = .error .unsupportedKeyAlgorithm := by
  unfold parseJwk
  split
  · split_ifs
    · rcases parseJwkEC_shape m with ⟨k, hk⟩ | hk | hk | hk
      · exact Or.inl ⟨k, hk⟩
      · exact Or.inr (Or.inl hk)
      · exact Or.inr (Or.inr (Or.inl hk))
      · exact Or.inr (Or.inr (Or.inr (Or.inl hk)))
    · rcases parseJwkRSA_shape m with ⟨k, hk⟩ | hk | hk
      · exact Or.inl ⟨k, hk⟩
      · exact Or.inr (Or.inl hk)
      · exact Or.inr (Or.inr (Or.inl hk))
    · rcases parseJwkOKP_shape m with ⟨k, hk⟩ | hk | hk
      · exact Or.inl ⟨k, hk⟩
      · exact Or.inr (Or.inl hk)
      · exact Or.inr (Or.inr (Or.inl hk))
    · exact Or.inr (Or.inr (Or.inr (Or.inr rfl)))
  · exact Or.inr (Or.inl rfl)

theorem getKeyStringRepresentation_shape (k : GoKey) :
    (∃ s, getKeyStringRepresentation k = .ok s) ∨ getKeyStringRepresentation k = .panics := by
  cases k with
  | ecdsa c x y =>
    unfold getKeyStringRepresentation keyStringParts fillBytesO GoOutcome.bind
    by_cases hx : x < 256 ^ keyCurveBytesSize c
    · by_cases hy : y < 256 ^ keyCurveBytesSize c
      · simp [hx, hy]
      · simp [hx, hy]
    · simp [hx]
  | rsa n e => exact Or.inl ⟨_, rfl⟩
  | ed25519 bs => exact Or.inl ⟨_, rfl⟩

/-- `thumbprint` succeeds, panics, or fails with a `parseJwk` error. -/
theorem thumbprint_shape (j : List (String × Jval)) :
    (∃ s, thumbprint j = .ok s) ∨ thumbprint j = .panics ∨
    thumbprint j = .err .invalidProof ∨ thumbprint j = .err .base64Decode ∨
    thumbprint j = .err .unsupportedCurve ∨ thumbprint j = .err .unsupportedKeyAlgorithm := by
  unfold thumbprint getThumbprintableJwkJSONbytes
  rcases parseJwk_shape j with ⟨k, hk⟩ | hk | hk | hk | hk
  · rcases getKeyStringRepresentation_shape k with ⟨s, hs⟩ | hs
    · simp [hk, hs]
    · simp [hk, hs]
  all_goals simp [hk]

/-- The thumbprint stage never produces a joined error other than the wrap of
a `parseJwk` failure or of `ErrIncorrectJKT`. -/
theorem jwkStage_ne_joined (tok : Token) (opts : ParseOptions) (e2 : GoError)
    (h1 : e2 ≠ .invalidProof) (h2 : e2 ≠ .base64Decode) (h3 : e2 ≠ .unsupportedCurve)
    (h4 : e2 ≠ .unsupportedKeyAlgorithm) (h5 : e2 ≠ .incorrectJKT) :
    jwkStage tok opts ≠ .err (.joined .invalidProof e2) := by
  unfold jwkStage
  split
  · rename_i jwk heq
    rcases thumbprint_shape jwk with ⟨s, hs⟩ | hs | hs | hs | hs | hs <;> simp only [hs]
    · split
      · intro hcontr
        simp only [GoOutcome.err.injEq, GoError.joined.injEq, true_and] at hcontr
        exact h5 hcontr.symm
      · simp
    · simp
    · intro hcontr
      simp only [GoOutcome.err.injEq, GoError.joined.injEq, true_and] at hcontr
      exact h1 hcontr.symm
    · intro hcontr
      simp only [GoOutcome.err.injEq, GoError.joined.injEq, true_and] at hcontr
      exact h2 hcontr.symm
    · intro hcontr
      simp only [GoOutcome.err.injEq, GoError.joined.injEq, true_and] at hcontr
      exact h3 hcontr.symm
    · intro hcontr
      simp only [GoOutcome.err.injEq, GoError.joined.injEq, true_and] at hcontr
      exact h4 hcontr.symm
  · simp

/-! ### The time-window check and stepping `Parse` to it -/

theorem iatWindowCheck_skip (opts : ParseOptions) (now iat : Int)
    (hn : opts.nonceHasTimestamp = true) : iatWindowCheck opts now iat = .ok () := by
  unfold iatWindowCheck
  rw [hn]
  rfl

theorem iatWindowCheck_spec (opts : ParseOptions) (now iat : Int)
    (hn : opts.nonceHasTimestamp = false) :
    (iatWindowCheck opts now iat = .error (.joined .invalidProof .expired) ↔
      iat < now - opts.allowedProofAge.getD DEFAULT_ALLOWED_PROOF_AGE) ∧
    (iatWindowCheck opts now iat = .error (.joined .invalidProof .future) ↔
      (¬iat < now - opts.allowedProofAge.getD DEFAULT_ALLOWED_PROOF_AGE ∧
        now + opts.timeWindow.getD DEFAULT_ALLOWED_TIME_WINDOW < iat)) ∧
    (iatWindowCheck opts now iat = .ok () ↔
      (¬iat < now - opts.allowedProofAge.getD DEFAULT_ALLOWED_PROOF_AGE ∧
        ¬now + opts.timeWindow.getD DEFAULT_ALLOWED_TIME_WINDOW < iat)) := by
  unfold iatWindowCheck
  rw [hn]
  by_cases hp : iat < now - opts.allowedProofAge.getD DEFAULT_ALLOWED_PROOF_AGE
  · simp [hp]
  · by_cases hf : now + opts.timeWindow.getD DEFAULT_ALLOWED_TIME_WINDOW < iat
    · simp [hp, hf]
    · simp [hp, hf]

/-- Under the hypotheses that every check before the `iat` window passes,
`Parse` reduces to the window check followed by the thumbprint stage. -/
theorem Parse_reaches_time (tok : Token) (httpMethod : String) (httpURL : GoURL)
    (opts : ParseOptions) (now iat : Int) (cu : GoURL)
    (h1 : tok.claims.method ≠ "") (h2 : tok.claims.url ≠ "") (h3 : tok.claims.id ≠ "")
    (h4 : tok.claims.issuedAt = some iat)
    (h5 : mapGet tok.header "typ" = some (.str "dpop+jwt"))
    (h6 : urlParse tok.claims.url = .ok cu)
    (h7 : httpMethod = tok.claims.method)
    (h8 : GoURL.toString { httpURL with rawQuery := "", fragment := "" } =
      GoURL.toString { cu with rawQuery := "", fragment := "" })
    (h9 : opts.nonce = "" ∨ opts.nonce = tok.claims.nonce) :
    Parse (.ok tok) httpMethod httpURL opts now =
      match iatWindowCheck opts now iat with
      | .error e => .err e
      | .ok _ => jwkStage tok opts := by
  unfold Parse
  dsimp only
  rw [if_neg (by simp [h1, h2, h3]), h4, h5]
  dsimp only
  rw [if_neg (by simp), h6]
  dsimp only
  rw [if_neg (by simp [h7, h8]), if_neg (by rcases h9 with h | h <;> simp [h])]

/-! ### Claim C1: the `iat` time window -/

/-- Witness token for the time-window claim: all checks before the window pass. -/
def c1tok : Token :=
  { header := [("typ", Jval.str "dpop+jwt"),
               ("jwk", Jval.obj [("kty", Jval.str "OKP"), ("x", Jval.str "AQID")])],
    claims := { method := "POST", url := "https://example.com/token", id := "jti-1",
                issuedAt := some 0, nonce := "" } }

/-- Witness request URL (carries a query string that the check strips). -/
def c1url : GoURL :=
  { scheme := "https", host := "example.com", path := "/token", rawQuery := "q=1", fragment := "" }

/-- The re-parsed claim `htu` of `c1tok`. -/
def c1cu : GoURL :=
  { scheme := "https", host := "example.com", path := "/token", rawQuery := "", fragment := "" }

/-- Witness options with the time-window checks active and all defaults. -/
def c1opts : ParseOptions :=
  { nonce := "", nonceHasTimestamp := false, timeWindow := none, allowedProofAge := none, jkt := "" }

/-- Witness options with `NonceHasTimestamp` set. -/
def c1optsSkip : ParseOptions :=
  { nonce := "", nonceHasTimestamp := true, timeWindow := none, allowedProofAge := none, jkt := "" }

/-- C1: when `NonceHasTimestamp` is false and every earlier check passes (and
the caller-side durations are non-negative, as the defaults are), `Parse`
fails with `Expired` exactly when `iat` is strictly before
`now - allowedProofAge` — so `iat` exactly at the boundary is accepted by the
window check — and fails with `Future` exactly when `iat` is strictly after
`now + timeWindow`; when `NonceHasTimestamp` is true, no call of `Parse`
whatsoever returns an `Expired` or `Future` error. -/
theorem c1_time_window :
    (∀ (tok : Token) (httpMethod : String) (httpURL : GoURL) (opts : ParseOptions)
       (now iat : Int) (cu : GoURL),
      tok.claims.method ≠ "" → tok.claims.url ≠ "" → tok.claims.id ≠ "" →
      tok.claims.issuedAt = some iat →
      mapGet tok.header "typ" = some (.str "dpop+jwt") →
      urlParse tok.claims.url = .ok cu →
      httpMethod = tok.claims.method →
      GoURL.toString { httpURL with rawQuery := "", fragment := "" } =
        GoURL.toString { cu with rawQuery := "", fragment := "" } →
      (opts.nonce = "" ∨ opts.nonce = tok.claims.nonce) →
      0 ≤ opts.allowedProofAge.getD DEFAULT_ALLOWED_PROOF_AGE →
      0 ≤ opts.timeWindow.getD DEFAULT_ALLOWED_TIME_WINDOW →
      opts.nonceHasTimestamp = false →
      ((Parse (.ok tok) httpMethod httpURL opts now = .err (.joined .invalidProof .expired) ↔
          iat < now - opts.allowedProofAge.getD DEFAULT_ALLOWED_PROOF_AGE) ∧
       (Parse (.ok tok) httpMethod httpURL opts now = .err (.joined .invalidProof .future) ↔
          now + opts.timeWindow.getD DEFAULT_ALLOWED_TIME_WINDOW < iat))) ∧
    (∀ (parseResult : Except Nat Token) (httpMethod : String) (httpURL : GoURL)
       (opts : ParseOptions) (now : Int),
      opts.nonceHasTimestamp = true →
      Parse parseResult httpMethod httpURL opts now ≠ .err (.joined .invalidProof .expired) ∧
      Parse parseResult httpMethod httpURL opts now ≠ .err (.joined .invalidProof .future)) := by
  constructor
  · intro tok httpMethod httpURL opts now iat cu h1 h2 h3 h4 h5 h6 h7 h8 h9 hp hf hn
    rw [Parse_reaches_time tok httpMethod httpURL opts now iat cu h1 h2 h3 h4 h5 h6 h7 h8 h9]
    obtain ⟨s1, s2, s3⟩ := iatWindowCheck_spec opts now iat hn
    constructor
    · constructor
      · intro h
        cases hw : iatWindowCheck opts now iat with
        | error e =>
          rw [hw] at h
          simp only [GoOutcome.err.injEq] at h
          subst h
          exact s1.mp hw
        | ok u =>
          rw [hw] at h
          exact absurd h (jwkStage_ne_joined tok opts .expired
            (by decide) (by decide) (by decide) (by decide) (by decide))
      · intro h
        rw [s1.mpr h]
    · constructor
      · intro h
        cases hw : iatWindowCheck opts now iat with
        | error e =>
          rw [hw] at h
          simp only [GoOutcome.err.injEq] at h
          subst h
          exact (s2.mp hw).2
        | ok u =>
          rw [hw] at h
          exact absurd h (jwkStage_ne_joined tok opts .future
            (by decide) (by decide) (by decide) (by decide) (by decide))
      · intro h
        have hnp : ¬iat < now - opts.allowedProofAge.getD DEFAULT_ALLOWED_PROOF_AGE := by omega
        rw [s2.mpr ⟨hnp, h⟩]
  · intro parseResult httpMethod httpURL opts now hn
    have key : ∀ e2 : GoError, e2 = .expired ∨ e2 = .future →
        Parse parseResult httpMethod httpURL opts now ≠ .err (.joined .invalidProof e2) := by
      intro e2 he2
      have hne1 : e2 ≠ .invalidProof := by rcases he2 with h | h <;> subst h <;> decide
      have hne2 : e2 ≠ .base64Decode := by rcases he2 with h | h <;> subst h <;> decide
      have hne3 : e2 ≠ .unsupportedCurve := by rcases he2 with h | h <;> subst h <;> decide
      have hne4 : e2 ≠ .unsupportedKeyAlgorithm := by
        rcases he2 with h | h <;> subst h <;> decide
      have hne5 : e2 ≠ .incorrectJKT := by rcases he2 with h | h <;> subst h <;> decide
      cases parseResult with
      | error c =>
        unfold Parse
        dsimp only
        rcases he2 with h | h <;> subst h <;> simp
      | ok tok =>
        unfold Parse
        dsimp only
        repeat' split
        all_goals solve
          | exact jwkStage_ne_joined tok opts e2 hne1 hne2 hne3 hne4 hne5
          | (rcases he2 with h | h <;> subst h <;> simp)
          | simp
          | simp_all [iatWindowCheck_skip]
    exact ⟨key .expired (Or.inl rfl), key .future (Or.inr rfl)⟩

/-- Witness for C1 at concrete inputs: the earlier checks pass, the durations
default, and both parts of the theorem apply. -/
theorem c1_time_window_witness :
    (c1tok.claims.method ≠ "" ∧ c1tok.claims.url ≠ "" ∧ c1tok.claims.id ≠ "" ∧
     c1tok.claims.issuedAt = some 0 ∧
     mapGet c1tok.header "typ" = some (.str "dpop+jwt") ∧
     urlParse c1tok.claims.url = .ok c1cu ∧
     "POST" = c1tok.claims.method ∧
     GoURL.toString { c1url with rawQuery := "", fragment := "" } =
       GoURL.toString { c1cu with rawQuery := "", fragment := "" } ∧
     (c1opts.nonce = "" ∨ c1opts.nonce = c1tok.claims.nonce) ∧
     0 ≤ c1opts.allowedProofAge.getD DEFAULT_ALLOWED_PROOF_AGE ∧
     0 ≤ c1opts.timeWindow.getD DEFAULT_ALLOWED_TIME_WINDOW ∧
     c1opts.nonceHasTimestamp = false ∧ c1optsSkip.nonceHasTimestamp = true) ∧
    ((Parse (.ok c1tok) "POST" c1url c1opts 0 = .err (.joined .invalidProof .expired) ↔
        (0 : Int) < 0 - c1opts.allowedProofAge.getD DEFAULT_ALLOWED_PROOF_AGE) ∧
     (Parse (.ok c1tok) "POST" c1url c1opts 0 = .err (.joined .invalidProof .future) ↔
        (0 : Int) + c1opts.timeWindow.getD DEFAULT_ALLOWED_TIME_WINDOW < 0)) ∧
    (Parse (.ok c1tok) "POST" c1url c1optsSkip 0 ≠ .err (.joined .invalidProof .expired) ∧
     Parse (.ok c1tok) "POST" c1url c1optsSkip 0 ≠ .err (.joined .invalidProof .future)) :=
  ⟨⟨by decide, by decide, by decide, rfl, rfl, rfl, by decide, by decide, Or.inl rfl,
    by decide, by decide, rfl, rfl⟩,
   c1_time_window.1 c1tok "POST" c1url c1opts 0 0 c1cu (by decide) (by decide) (by decide)
     rfl rfl rfl (by decide) (by decide) (Or.inl rfl) (by decide) (by decide) rfl,
   c1_time_window.2 (.ok c1tok) "POST" c1url c1optsSkip 0 rfl⟩

/-! ### Claim C2: the HTTP-target check strips query and fragment on both sides -/

theorem iatWindowCheck_shape (opts : ParseOptions) (now iat : Int) :
    iatWindowCheck opts now iat = .ok () ∨
    iatWindowCheck opts now iat = .error (.joined .invalidProof .expired) ∨
    iatWindowCheck opts now iat = .error (.joined .invalidProof .future) := by
  unfold iatWindowCheck
  split
  · dsimp only
    split_ifs <;> simp
  · simp

/-- Witness token whose `htu` claim itself carries a query string. -/
def c2tok : Token :=
  { header := [("typ", Jval.str "dpop+jwt"),
               ("jwk", Jval.obj [("kty", Jval.str "OKP"), ("x", Jval.str "AQID")])],
    claims := { method := "POST", url := "https://example.com/token?foo=bar", id := "jti-2",
                issuedAt := some 0, nonce := "" } }

/-- Witness request URL with its own query string and fragment. -/
def c2url : GoURL :=
  { scheme := "https", host := "example.com", path := "/token", rawQuery := "x=1",
    fragment := "frag" }

/-- The re-parse of `c2tok`'s `htu`, still carrying its query string. -/
def c2cu : GoURL :=
  { scheme := "https", host := "example.com", path := "/token", rawQuery := "foo=bar",
    fragment := "" }

/-- Witness options for the target-check claim. -/
def c2opts : ParseOptions :=
  { nonce := "", nonceHasTimestamp := true, timeWindow := none, allowedProofAge := none, jkt := "" }

/-- C2: once the earlier checks pass and the claim `htu` re-parses, `Parse`
fails with `IncorrectHTTPTarget` exactly when the method differs or the
query- and fragment-stripped serializations of the request URL and of the
re-parsed `htu` differ — so a proof whose `htu` carries a query string is
accepted by the target check whenever the stripped URLs agree. -/
theorem c2_target_strip :
    ∀ (tok : Token) (httpMethod : String) (httpURL : GoURL) (opts : ParseOptions)
      (now iat : Int) (cu : GoURL),
      tok.claims.method ≠ "" → tok.claims.url ≠ "" → tok.claims.id ≠ "" →
      tok.claims.issuedAt = some iat →
      mapGet tok.header "typ" = some (.str "dpop+jwt") →
      urlParse tok.claims.url = .ok cu →
      (Parse (.ok tok) httpMethod httpURL opts now =
          .err (.joined .invalidProof .incorrectHTTPTarget) ↔
        (httpMethod ≠ tok.claims.method ∨
          GoURL.toString { httpURL with rawQuery := "", fragment := "" } ≠
            GoURL.toString { cu with rawQuery := "", fragment := "" })) := by
  intro tok httpMethod httpURL opts now iat cu h1 h2 h3 h4 h5 h6
  unfold Parse
  dsimp only
  rw [if_neg (by simp [h1, h2, h3]), h4, h5]
  dsimp only
  rw [if_neg (by simp), h6]
  dsimp only
  by_cases hc : httpMethod ≠ tok.claims.method ∨
      GoURL.toString { httpURL with rawQuery := "", fragment := "" } ≠
        GoURL.toString { cu with rawQuery := "", fragment := "" }
  · rw [if_pos hc]
    simp [hc]
  · rw [if_neg hc]
    constructor
    · intro h
      exfalso
      by_cases hnc : opts.nonce ≠ "" ∧ opts.nonce ≠ tok.claims.nonce
      · rw [if_pos hnc] at h
        simp at h
      · rw [if_neg hnc] at h
        rcases iatWindowCheck_shape opts now iat with hw | hw | hw <;> rw [hw] at h
        · exact absurd h (jwkStage_ne_joined tok opts .incorrectHTTPTarget
            (by decide) (by decide) (by decide) (by decide) (by decide))
        · simp at h
        · simp at h
    · intro h
      exact absurd h hc

/-- Witness for C2: the stripped request URL and the stripped re-parsed `htu`
of `c2tok` agree even though both carry query strings, and the theorem applies
at these inputs. -/
theorem c2_target_strip_witness :
    (c2tok.claims.method ≠ "" ∧ c2tok.claims.url ≠ "" ∧ c2tok.claims.id ≠ "" ∧
     c2tok.claims.issuedAt = some 0 ∧
     mapGet c2tok.header "typ" = some (.str "dpop+jwt") ∧
     urlParse c2tok.claims.url = .ok c2cu ∧
     GoURL.toString { c2url with rawQuery := "", fragment := "" } =
       GoURL.toString { c2cu with rawQuery := "", fragment := "" }) ∧
    (Parse (.ok c2tok) "POST" c2url c2opts 0 =
        .err (.joined .invalidProof .incorrectHTTPTarget) ↔
      ("POST" ≠ c2tok.claims.method ∨
        GoURL.toString { c2url with rawQuery := "", fragment := "" } ≠
          GoURL.toString { c2cu with rawQuery := "", fragment := "" })) :=
  ⟨⟨by decide, by decide, by decide, rfl, rfl, rfl, by decide⟩,
   c2_target_strip c2tok "POST" c2url c2opts 0 0 c2cu (by decide) (by decide) (by decide)
     rfl rfl rfl⟩

/-! ### Claim C3: thumbprint determinism -/

theorem parseJwkEC_congr (j1 j2 : List (String × Jval))
    (hx : mapGet j1 "x" = mapGet j2 "x") (hy : mapGet j1 "y" = mapGet j2 "y")
    (hcrv : mapGet j1 "crv" = mapGet j2 "crv") : parseJwkEC j1 = parseJwkEC j2 := by
  unfold parseJwkEC
  rw [hx, hy, hcrv]

theorem parseJwkRSA_congr (j1 j2 : List (String × Jval))
    (he : mapGet j1 "e" = mapGet j2 "e") (hn : mapGet j1 "n" = mapGet j2 "n") :
    parseJwkRSA j1 = parseJwkRSA j2 := by
  unfold parseJwkRSA
  rw [he, hn]

theorem parseJwkOKP_congr (j1 j2 : List (String × Jval))
    (hx : mapGet j1 "x" = mapGet j2 "x") : parseJwkOKP j1 = parseJwkOKP j2 := by
  unfold parseJwkOKP
  rw [hx]

/-- `parseJwk` reads only `kty` and the members required for that `kty`: two
JWK maps agreeing there decode identically, whatever else they contain. -/
theorem parseJwk_congr (j1 j2 : List (String × Jval))
    (hkty : mapGet j1 "kty" = mapGet j2 "kty")
    (hEC : mapGet j1 "kty" = some (.str "EC") →
      mapGet j1 "crv" = mapGet j2 "crv" ∧ mapGet j1 "x" = mapGet j2 "x" ∧
        mapGet j1 "y" = mapGet j2 "y")
    (hRSA : mapGet j1 "kty" = some (.str "RSA") →
      mapGet j1 "e" = mapGet j2 "e" ∧ mapGet j1 "n" = mapGet j2 "n")
    (hOKP : mapGet j1 "kty" = some (.str "OKP") → mapGet j1 "x" = mapGet j2 "x") :
    parseJwk j1 = parseJwk j2 := by
  unfold parseJwk
  rw [hkty]
  cases hk : mapGet j2 "kty" with
  | none => rfl
  | some v =>
    cases v with
    | str kty =>
      dsimp only
      by_cases h1 : kty = "EC"
      · subst h1
        obtain ⟨hcrv, hx, hy⟩ := hEC (hkty.trans hk)
        rw [if_pos rfl, if_pos rfl]
        exact parseJwkEC_congr j1 j2 hx hy hcrv
      · by_cases h2 : kty = "RSA"
        · subst h2
          obtain ⟨he, hn⟩ := hRSA (hkty.trans hk)
          rw [if_neg h1, if_neg h1, if_pos rfl, if_pos rfl]
          exact parseJwkRSA_congr j1 j2 he hn
        · by_cases h3 : kty = "OKP"
          · subst h3
            have hx := hOKP (hkty.trans hk)
            rw [if_neg h1, if_neg h1, if_neg h2, if_neg h2, if_pos rfl, if_pos rfl]
            exact parseJwkOKP_congr j1 j2 hx
          · rw [if_neg h1, if_neg h1, if_neg h2, if_neg h2, if_neg h3, if_neg h3]
    | num n => rfl
    | boolean b => rfl
    | null => rfl
    | obj f => rfl

/-- First witness JWK: an OKP key with extraneous `alg` and `use` members. -/
def c3jwk1 : List (String × Jval) :=
  [("kty", Jval.str "OKP"), ("x", Jval.str "AQID"),
   ("alg", Jval.str "EdDSA"), ("use", Jval.str "sig")]

/-- Second witness JWK: the same key material, reordered, without extras. -/
def c3jwk2 : List (String × Jval) :=
  [("x", Jval.str "AQID"), ("kty", Jval.str "OKP")]

/-- C3: the thumbprint — the base64url-encoded SHA-256 digest of the
canonical minimal-member JSON, as `thumbprint` computes it — is a function of
the required members alone: two JWK maps with the same `kty` and the same
required members for that `kty` produce the identical thumbprint string, any
extraneous members and any member order notwithstanding. -/
theorem c3_thumbprint_deterministic :
    ∀ j1 j2 : List (String × Jval),
      mapGet j1 "kty" = mapGet j2 "kty" →
      (mapGet j1 "kty" = some (.str "EC") →
        mapGet j1 "crv" = mapGet j2 "crv" ∧ mapGet j1 "x" = mapGet j2 "x" ∧
          mapGet j1 "y" = mapGet j2 "y") →
      (mapGet j1 "kty" = some (.str "RSA") →
        mapGet j1 "e" = mapGet j2 "e" ∧ mapGet j1 "n" = mapGet j2 "n") →
      (mapGet j1 "kty" = some (.str "OKP") → mapGet j1 "x" = mapGet j2 "x") →
      thumbprint j1 = thumbprint j2 := by
  intro j1 j2 hkty hEC hRSA hOKP
  unfold thumbprint getThumbprintableJwkJSONbytes
  rw [parseJwk_congr j1 j2 hkty hEC hRSA hOKP]

/-- Witness for C3: the two concrete JWK maps agree on the required members
(an OKP key), differ in member order and extraneous members, and the theorem
yields the equality of their thumbprints. -/
theorem c3_thumbprint_deterministic_witness :
    (mapGet c3jwk1 "kty" = mapGet c3jwk2 "kty" ∧
     (mapGet c3jwk1 "kty" = some (.str "OKP") → mapGet c3jwk1 "x" = mapGet c3jwk2 "x")) ∧
    thumbprint c3jwk1 = thumbprint c3jwk2 :=
  ⟨⟨rfl, fun _ => rfl⟩,
   c3_thumbprint_deterministic c3jwk1 c3jwk2 rfl
     (fun h => absurd (Jval.str.inj (Option.some.inj h)) (by decide))
     (fun h => absurd (Jval.str.inj (Option.some.inj h)) (by decide))
     (fun _ => rfl)⟩

/-! ### Claim C4: fixed-width EC coordinate encoding -/

/-- C4: for a supported curve the canonical JWK form encodes `x` and `y` with
`FillBytes` at width `keyCurveBytesSize`, which equals `ceil(bitSize/8)` —
32, 48 and 66 bytes — and that fixed-width byte string is the minimal
big-endian encoding zero-padded on the left. -/
theorem c4_ec_fixed_width :
    ∀ (c : Curve) (x y : Nat),
      x < 256 ^ keyCurveBytesSize c →
      y < 256 ^ keyCurveBytesSize c →
      keyStringParts (.ecdsa c x y) = .ok
        [("kty", "EC"), ("crv", c.name),
         ("x", b64urlEncodeString (natBytesFixed (keyCurveBytesSize c) x)),
         ("y", b64urlEncodeString (natBytesFixed (keyCurveBytesSize c) y))] ∧
      keyCurveBytesSize c = (c.bitSize + 7) / 8 ∧
      (c = Curve.P256 → keyCurveBytesSize c = 32) ∧
      (c = Curve.P384 → keyCurveBytesSize c = 48) ∧
      (c = Curve.P521 → keyCurveBytesSize c = 66) ∧
      (natBytesFixed (keyCurveBytesSize c) x).length = keyCurveBytesSize c ∧
      natBytesFixed (keyCurveBytesSize c) x =
        List.replicate (keyCurveBytesSize c - (natBytes x).length) 0 ++ natBytes x ∧
      natBytesFixed (keyCurveBytesSize c) y =
        List.replicate (keyCurveBytesSize c - (natBytes y).length) 0 ++ natBytes y := by
  intro c x y hx hy
  refine ⟨?_, ?_, ?_, ?_, ?_, ?_, ?_, ?_⟩
  · simp [keyStringParts, fillBytesO, GoOutcome.bind, hx, hy]
  · cases c <;> rfl
  · intro h; subst h; rfl
  · intro h; subst h; rfl
  · intro h; subst h; rfl
  · exact natBytesFixed_length _ _
  · exact natBytesFixed_eq_pad _ _ hx
  · exact natBytesFixed_eq_pad _ _ hy

/-- Witness for C4 on P-521 with small coordinates, whose minimal encodings
need 65 zero-pad bytes to reach the 66-byte width. -/
theorem c4_ec_fixed_width_witness :
    ((1 : Nat) < 256 ^ keyCurveBytesSize Curve.P521 ∧
     (2 : Nat) < 256 ^ keyCurveBytesSize Curve.P521) ∧
    (keyStringParts (.ecdsa Curve.P521 1 2) = .ok
        [("kty", "EC"), ("crv", Curve.P521.name),
         ("x", b64urlEncodeString (natBytesFixed (keyCurveBytesSize Curve.P521) 1)),
         ("y", b64urlEncodeString (natBytesFixed (keyCurveBytesSize Curve.P521) 2))] ∧
      keyCurveBytesSize Curve.P521 = (Curve.P521.bitSize + 7) / 8 ∧
      (Curve.P521 = Curve.P256 → keyCurveBytesSize Curve.P521 = 32) ∧
      (Curve.P521 = Curve.P384 → keyCurveBytesSize Curve.P521 = 48) ∧
      (Curve.P521 = Curve.P521 → keyCurveBytesSize Curve.P521 = 66) ∧
      (natBytesFixed (keyCurveBytesSize Curve.P521) 1).length = keyCurveBytesSize Curve.P521 ∧
      natBytesFixed (keyCurveBytesSize Curve.P521) 1 =
        List.replicate (keyCurveBytesSize Curve.P521 - (natBytes 1).length) 0 ++ natBytes 1 ∧
      natBytesFixed (keyCurveBytesSize Curve.P521) 2 =
        List.replicate (keyCurveBytesSize Curve.P521 - (natBytes 2).length) 0 ++ natBytes 2) :=
  ⟨⟨by decide, by decide⟩,
   c4_ec_fixed_width Curve.P521 1 2 (by decide) (by decide)⟩

/-! ### Claim C5: decode(encode(key)) round-trips -/

theorem foldl_replicate_zero (k : Nat) :
    List.foldl (fun acc b => acc * 256 + b) 0 (List.replicate k 0) = 0 := by
  induction k with
  | zero => rfl
  | succ k ih => simpa [List.replicate_succ] using ih

theorem bytesToNat_natBytesFixed (len n : Nat) (h : n < 256 ^ len) :
    bytesToNat (natBytesFixed len n) = n := by
  rw [natBytesFixed_eq_pad len n h]
  unfold bytesToNat
  rw [List.foldl_append, foldl_replicate_zero]
  exact bytesToNat_natBytes n

/-- The keys `getKeyStringRepresentation` is defined on: EC coordinates fit
the curve byte size (true of any point on the curve) and the RSA exponent is
a non-negative Go `int` (true of any real RSA public exponent). -/
def keyValid : GoKey → Prop
  | .ecdsa c x y => x < 256 ^ keyCurveBytesSize c ∧ y < 256 ^ keyCurveBytesSize c
  | .rsa _ e => 0 ≤ e ∧ e < 2 ^ 63
  | .ed25519 bs => ∀ b ∈ bs, b < 256

/-- C5: for every supported key, `parseJwk` applied to the JSON map that
`getKeyStringRepresentation` builds (its `keyParts`, with the string values
re-wrapped as JSON strings) succeeds and returns the original key — equal
curve and coordinates, equal modulus and exponent, equal raw point. -/
theorem c5_roundtrip :
    ∀ key : GoKey, keyValid key →
      ∃ parts, keyStringParts key = .ok parts ∧
        parseJwk (parts.map (fun kv => (kv.1, Jval.str kv.2))) = .ok key := by
  intro key hv
  cases key with
  | ecdsa c x y =>
    obtain ⟨hx, hy⟩ := hv
    refine ⟨[("kty", "EC"), ("crv", c.name),
             ("x", b64urlEncodeString (natBytesFixed (keyCurveBytesSize c) x)),
             ("y", b64urlEncodeString (natBytesFixed (keyCurveBytesSize c) y))], ?_, ?_⟩
    · simp [keyStringParts, fillBytesO, GoOutcome.bind, hx, hy]
    · have hdx := base64urlTrailingPadding_encode _ (natBytesFixed_lt (keyCurveBytesSize c) x)
      have hdy := base64urlTrailingPadding_encode _ (natBytesFixed_lt (keyCurveBytesSize c) y)
      have hbx := bytesToNat_natBytesFixed _ _ hx
      have hby := bytesToNat_natBytesFixed _ _ hy
      cases c <;> simp [parseJwk, parseJwkEC, mapGet, Curve.name, hdx, hdy, hbx, hby]
  | rsa n e =>
    obtain ⟨he0, he1⟩ := hv
    refine ⟨[("kty", "RSA"), ("e", b64urlEncodeString (natBytes e.natAbs)),
             ("n", b64urlEncodeString (natBytes n))], rfl, ?_⟩
    have hde := base64urlTrailingPadding_encode _ (natBytes_lt e.natAbs)
    have hdn := base64urlTrailingPadding_encode _ (natBytes_lt n)
    have hbe := bytesToNat_natBytes e.natAbs
    have hbn := bytesToNat_natBytes n
    have hsig : toSigned64 (e.natAbs % 18446744073709551616) = e := by
      unfold toSigned64
      rw [Nat.mod_eq_of_lt (by omega), if_pos (by omega)]
      omega
    simp [parseJwk, parseJwkRSA, mapGet, hde, hdn, hbe, hbn, hsig]
  | ed25519 bs =>
    refine ⟨[("kty", "OKP"), ("crv", "Ed25519"), ("x", b64urlEncodeString bs)], rfl, ?_⟩
    have hdx := base64urlTrailingPadding_encode bs hv
    simp [parseJwk, parseJwkOKP, mapGet, hdx]

/-- Witness for C5: an Ed25519 key with raw point bytes `[1, 2, 255]`. -/
theorem c5_roundtrip_witness :
    keyValid (.ed25519 [1, 2, 255]) ∧
    ∃ parts, keyStringParts (.ed25519 [1, 2, 255]) = .ok parts ∧
      parseJwk (parts.map (fun kv => (kv.1, Jval.str kv.2))) = .ok (.ed25519 [1, 2, 255]) :=
  ⟨by intro b hb; fin_cases hb <;> decide,
   c5_roundtrip (.ed25519 [1, 2, 255]) (by intro b hb; fin_cases hb <;> decide)⟩

/-! ### Claim C6: the key decoder's error taxonomy -/

/-- The `kty` member is absent or not a JSON string (the failed Go type
assertion `jwkMap["kty"].(string)` with `ok = false`). -/
def ktyNotString (m : List (String × Jval)) : Prop :=
  match mapGet m "kty" with
  | some (.str _) => False
  | _ => True

/-- Counterexample to C6 as stated: the map with `kty = "EC"` and an
unsupported `crv` but no `x` member fails with `InvalidProof` (the `x`
assertion runs first), not with `UnsupportedCurve`. -/
theorem c6_counterexample :
    parseJwk [("kty", Jval.str "EC"), ("crv", Jval.str "P-999")] = .error .invalidProof ∧
    (Except.error GoError.invalidProof : Except GoError GoKey) ≠ .error .unsupportedCurve :=
  ⟨rfl, by simp⟩

/-- C6 (amended): a missing or non-string `kty` fails with `InvalidProof`;
`kty = "EC"` — provided `x` and `y` are present as base64url-decodable strings
and `crv` is a string — fails with `UnsupportedCurve` whenever `crv` is
outside the supported three; `kty = "OCT"` or any other unsupported string
fails with `UnsupportedKeyAlgorithm`; and `kty = "OKP"` — provided `x` is
present as a base64url-decodable string — succeeds whatever `crv` holds,
since `crv` is never compared to `"Ed25519"`. -/
theorem c6_amended :
    ∀ m : List (String × Jval),
      (ktyNotString m → parseJwk m = .error .invalidProof) ∧
      (mapGet m "kty" = some (.str "EC") →
        ∀ xs ys crv xb yb, mapGet m "x" = some (.str xs) → mapGet m "y" = some (.str ys) →
          mapGet m "crv" = some (.str crv) →
          base64urlTrailingPadding xs = some xb → base64urlTrailingPadding ys = some yb →
          crv ≠ "P-256" → crv ≠ "P-384" → crv ≠ "P-521" →
          parseJwk m = .error .unsupportedCurve) ∧
      (∀ s, mapGet m "kty" = some (.str s) → s ≠ "EC" → s ≠ "RSA" → s ≠ "OKP" →
        parseJwk m = .error .unsupportedKeyAlgorithm) ∧
      (mapGet m "kty" = some (.str "OKP") →
        ∀ xs xb, mapGet m "x" = some (.str xs) → base64urlTrailingPadding xs = some xb →
          parseJwk m = .ok (.ed25519 xb)) := by
  intro m
  refine ⟨?_, ?_, ?_, ?_⟩
  · intro h
    unfold ktyNotString at h
    unfold parseJwk
    split
    · rename_i s heq
      rw [heq] at h
      exact h.elim
    · rfl
  · intro hk xs ys crv xb yb hx hy hcrv hdx hdy hc1 hc2 hc3
    unfold parseJwk
    simp only [hk]
    rw [if_pos trivial]
    unfold parseJwkEC
    simp only [hx, hy, hcrv, hdx, hdy]
    rw [if_neg hc1, if_neg hc2, if_neg hc3]
  · intro s hk h1 h2 h3
    unfold parseJwk
    simp only [hk]
    rw [if_neg h1, if_neg h2, if_neg h3]
  · intro hk xs xb hx hdx
    unfold parseJwk
    simp only [hk]
    simp [parseJwkOKP, hx, hdx]

/-- A JWK map with a numeric `kty`. -/
def c6m1 : List (String × Jval) := [("kty", Jval.num 3)]

/-- An EC JWK with decodable coordinates and an unsupported curve name. -/
def c6m2 : List (String × Jval) :=
  [("kty", Jval.str "EC"), ("x", Jval.str "AQ"), ("y", Jval.str "AQ"),
   ("crv", Jval.str "P-111")]

/-- A symmetric-key JWK. -/
def c6m3 : List (String × Jval) := [("kty", Jval.str "OCT")]

/-- An OKP JWK whose `crv` is not `"Ed25519"` at all. -/
def c6m4 : List (String × Jval) :=
  [("kty", Jval.str "OKP"), ("crv", Jval.str "P-256"), ("x", Jval.str "AQID")]

/-- Witness for the amended C6, applying each part at a concrete JWK map. -/
theorem c6_amended_witness :
    (ktyNotString c6m1 ∧
     mapGet c6m2 "kty" = some (.str "EC") ∧ mapGet c6m2 "x" = some (.str "AQ") ∧
     mapGet c6m2 "y" = some (.str "AQ") ∧ mapGet c6m2 "crv" = some (.str "P-111") ∧
     base64urlTrailingPadding "AQ" = some [1] ∧
     mapGet c6m3 "kty" = some (.str "OCT") ∧
     mapGet c6m4 "kty" = some (.str "OKP") ∧ mapGet c6m4 "x" = some (.str "AQID") ∧
     base64urlTrailingPadding "AQID" = some [1, 2, 3]) ∧
    (parseJwk c6m1 = .error .invalidProof ∧
     parseJwk c6m2 = .error .unsupportedCurve ∧
     parseJwk c6m3 = .error .unsupportedKeyAlgorithm ∧
     parseJwk c6m4 = .ok (.ed25519 [1, 2, 3])) :=
  ⟨⟨True.intro, rfl, rfl, rfl, rfl, rfl, rfl, rfl, rfl, rfl⟩,
   (c6_amended c6m1).1 True.intro,
   (c6_amended c6m2).2.1 rfl "AQ" "AQ" "P-111" [1] [1] rfl rfl rfl rfl rfl
     (by decide) (by decide) (by decide),
   (c6_amended c6m3).2.2.1 "OCT" rfl (by decide) (by decide) (by decide),
   (c6_amended c6m4).2.2.2 rfl "AQID" [1, 2, 3] rfl rfl⟩

/-! ### Claims C7 and C8: the unchecked `typ` type assertion panics -/

/-- A token whose `typ` JOSE header is present but holds the JSON boolean
`true` instead of a string; signature, claims and `jwk` header are all in
order. -/
def c7tok : Token :=
  { header := [("typ", Jval.boolean true),
               ("jwk", Jval.obj [("kty", Jval.str "OKP"), ("x", Jval.str "AQID")])],
    claims := { method := "POST", url := "https://example.com/token", id := "jti-7",
                issuedAt := some 0, nonce := "" } }

/-- C7 (the code bug): at a proof whose `typ` header is present but not a
string, `Parse` does not return a `(result, error)` pair — the unchecked type
assertion `typeHeader.(string)` on parse.go line 90 panics. -/
theorem c7_typ_assertion_panics :
    Parse (.ok c7tok) "POST"
      { scheme := "https", host := "example.com", path := "/token",
        rawQuery := "", fragment := "" }
      { nonce := "", nonceHasTimestamp := false, timeWindow := none,
        allowedProofAge := none, jkt := "" }
      0 = .panics := rfl

/-- A token whose `typ` header holds the JSON number `5`: its `typ` check is
the first failing check of the sequence. -/
def c8tok : Token :=
  { header := [("typ", Jval.num 5),
               ("jwk", Jval.obj [("kty", Jval.str "OKP"), ("x", Jval.str "AQID")])],
    claims := { method := "GET", url := "https://api.example.com/resource", id := "jti-8",
                issuedAt := some 100, nonce := "" } }

/-- C8 (the code bug): at a proof whose first failing check is the `typ`
header holding a non-string, `Parse` neither returns a non-nil `Proof` nor
returns `(nil, error)` — it panics through the unchecked type assertion. -/
theorem c8_first_failure_panics :
    Parse (.ok c8tok) "GET"
      { scheme := "https", host := "api.example.com", path := "/resource",
        rawQuery := "", fragment := "" }
      { nonce := "", nonceHasTimestamp := false, timeWindow := none,
        allowedProofAge := none, jkt := "" }
      100 = .panics := rfl

/-! ### Claim C9: the stripping prelude mutates the caller's URL -/

/-- A caller URL carrying both a query string and a fragment. -/
def c9url : GoURL :=
  { scheme := "https", host := "example.com", path := "/token", rawQuery := "foo=bar",
    fragment := "frag" }

/-- C9 (the code bug): `&(*httpURL)` is `httpURL` itself, so no copy exists
and the stripping writes land in the caller's cell — after the prelude of
`Parse` runs, the caller's `url.URL` holds cleared `RawQuery` and `Fragment`
fields, and at a URL that carried either one it no longer holds its original
field values, despite the source's own comment that the original is not
modified. -/
theorem c9_mutates_caller :
    (∀ u : GoURL,
      (stripHeap u).1.head? = some { u with rawQuery := "", fragment := "" } ∧
      (stripHeap u).2 = 0) ∧
    (stripHeap c9url).1.head? ≠ some c9url :=
  ⟨fun u => ⟨rfl, rfl⟩, by decide⟩

/-! ### Claim C10: oversized RSA exponents are silently truncated -/

/-- C10: an RSA JWK whose decoded `e` is at least `2 ^ 63` is not rejected:
`parseJwk` succeeds and stores as exponent the low 64 bits of the value
reinterpreted as a signed machine int, which never equals the encoded value —
the decoded key differs from the encoded one. -/
theorem c10_rsa_exponent_low64 :
    ∀ (m : List (String × Jval)) (es ns : String) (eb nb : List Nat),
      mapGet m "kty" = some (.str "RSA") →
      mapGet m "e" = some (.str es) →
      mapGet m "n" = some (.str ns) →
      base64urlTrailingPadding es = some eb →
      base64urlTrailingPadding ns = some nb →
      2 ^ 63 ≤ bytesToNat eb →
      parseJwk m = .ok (.rsa (bytesToNat nb) (toSigned64 (bytesToNat eb % 2 ^ 64))) ∧
      toSigned64 (bytesToNat eb % 2 ^ 64) ≠ (bytesToNat eb : Int) := by
  intro m es ns eb nb hk he hn hde hdn hbig
  constructor
  · unfold parseJwk
    simp only [hk]
    simp [parseJwkRSA, he, hn, hde, hdn]
  · unfold toSigned64
    split <;> omega

/-- An RSA JWK whose `e` decodes to the 8-byte value `2 ^ 63`. -/
def c10m : List (String × Jval) :=
  [("kty", Jval.str "RSA"), ("e", Jval.str "gAAAAAAAAAA"), ("n", Jval.str "AQAB")]

/-- Witness for C10: at `e = 2 ^ 63` the decoder succeeds and the stored
exponent (a negative machine int) differs from the encoded value. -/
theorem c10_rsa_exponent_low64_witness :
    (mapGet c10m "kty" = some (.str "RSA") ∧
     mapGet c10m "e" = some (.str "gAAAAAAAAAA") ∧
     mapGet c10m "n" = some (.str "AQAB") ∧
     base64urlTrailingPadding "gAAAAAAAAAA" = some [128, 0, 0, 0, 0, 0, 0, 0] ∧
     base64urlTrailingPadding "AQAB" = some [1, 0, 1] ∧
     2 ^ 63 ≤ bytesToNat [128, 0, 0, 0, 0, 0, 0, 0]) ∧
    (parseJwk c10m = .ok (.rsa (bytesToNat [1, 0, 1])
        (toSigned64 (bytesToNat [128, 0, 0, 0, 0, 0, 0, 0] % 2 ^ 64))) ∧
     toSigned64 (bytesToNat [128, 0, 0, 0, 0, 0, 0, 0] % 2 ^ 64) ≠
       (bytesToNat [128, 0, 0, 0, 0, 0, 0, 0] : Int)) :=
  ⟨⟨rfl, rfl, rfl, rfl, rfl, by decide⟩,
   c10_rsa_exponent_low64 c10m "gAAAAAAAAAA" "AQAB" [128, 0, 0, 0, 0, 0, 0, 0] [1, 0, 1]
     rfl rfl rfl rfl rfl (by decide)⟩
